import Mathlib

/-!
Shallow embedding of `src/static/app.js` (the wallpaper preview controller)
and proofs of the specification claims about it.

The script's state is a single nullable JS variable `currentCharacterId`
plus the DOM controls it reads and the preview container it writes.  We
model JS values that can flow into `currentCharacterId` with `JSVal`
(null, a number, or NaN), the form controls and the preview container as
fields of `AppState`, and one preview fetch as a pure function from the
pre-state and the network outcome to the post-state.
-/

namespace HanjaApp

/-- A JavaScript value as stored in `currentCharacterId`: `null`, a number
(integers only ever arise here), or `NaN` (what `parseInt` returns when it
fails to parse). -/
inductive JSVal where
  | null : JSVal
  | num : Int → JSVal
  | nan : JSVal
  deriving DecidableEq, Repr

/-- JS truthiness of a `JSVal`: `null`, `NaN` and `0` are falsy. -/
def truthy : JSVal → Bool
  | .null => false
  | .nan => false
  | .num n => n != 0

/-- JS `String(v)` for the values we store. -/
def jsValToString : JSVal → String
  | .null => "null"
  | .nan => "NaN"
  | .num n => toString n

/-- Numeric value of a decimal digit character. -/
def digitVal (c : Char) : Nat := c.toNat - '0'.toNat

/-- Base-10 value of a list of digit characters. -/
def digitsToNat (l : List Char) : Nat := l.foldl (fun a c => 10 * a + digitVal c) 0

/-- JS `parseInt(s, 10)`: skip leading whitespace, optional sign, then the
leading run of decimal digits; `NaN` if that run is empty. -/
def parseIntJS (s : String) : JSVal :=
  let l := s.toList.dropWhile Char.isWhitespace
  match l with
  | [] => JSVal.nan
  | c :: rest =>
    if c = '-' then
      let d := rest.takeWhile Char.isDigit
      if d.isEmpty then JSVal.nan else JSVal.num (-(digitsToNat d : Int))
    else if c = '+' then
      let d := rest.takeWhile Char.isDigit
      if d.isEmpty then JSVal.nan else JSVal.num (digitsToNat d)
    else
      let d := l.takeWhile Char.isDigit
      if d.isEmpty then JSVal.nan else JSVal.num (digitsToNat d)

/-- JS `String.prototype.trim()` (restricted to ASCII whitespace, the only
kind that occurs here). -/
def trimJS (s : String) : String :=
  String.mk (((s.toList.dropWhile Char.isWhitespace).reverse.dropWhile
    Char.isWhitespace).reverse)

/-! ### The regex `/filename=wallpaper_\w+_(\d+)\.svg/`

`fetchPreview` runs `contentDisposition.match(/filename=wallpaper_\w+_(\d+)\.svg/)`
and, on a match, parses group 1.  We implement that regex directly:
leftmost match, `\w+` greedy with backtracking.  `\d+` needs no
backtracking before the literal `.svg` because `.` is not a digit, so only
the maximal digit run can be followed by `.svg`. -/

/-- JS `\w`: `[A-Za-z0-9_]`. -/
def isWordChar (c : Char) : Bool := c.isAlphanum || c = '_'

/-- Match a literal prefix, returning the rest of the input. -/
def matchLit : List Char → List Char → Option (List Char)
  | [], rest => some rest
  | _ :: _, [] => none
  | p :: ps, c :: cs => if c = p then matchLit ps cs else none

/-- Match `_(\d+)\.svg` at the start of `l`; return the captured digits. -/
def matchIdTail (l : List Char) : Option (List Char) :=
  match l with
  | [] => none
  | c :: rest =>
    if c = '_' then
      let d := rest.takeWhile Char.isDigit
      if d.isEmpty then none
      else if (matchLit ".svg".toList (rest.dropWhile Char.isDigit)).isSome then some d
      else none
    else none

/-- Match `\w+_(\d+)\.svg` at the start of `l`: consume one word character,
then greedily prefer extending `\w+` over matching the tail here. -/
def matchWordTail : List Char → Option (List Char)
  | [] => none
  | c :: rest =>
    if isWordChar c then
      match matchWordTail rest with
      | some d => some d
      | none => matchIdTail rest
    else none

/-- Match the whole pattern at the start of `l`. -/
def matchFilenameAt (l : List Char) : Option (List Char) :=
  match matchLit "filename=wallpaper_".toList l with
  | some rest => matchWordTail rest
  | none => none

/-- `s.match(/filename=wallpaper_\w+_(\d+)\.svg/)`: leftmost match, group 1. -/
def extractCharacterId : List Char → Option (List Char)
  | [] => none
  | c :: rest =>
    match matchFilenameAt (c :: rest) with
    | some d => some d
    | none => extractCharacterId rest

/-! ### Application state and operations -/

/-- The state the script reads and writes: the three form controls
(`characterSetSelect.value`, `iphoneModelSelect.value`,
`characterIdInput.value`), the `currentCharacterId` variable, and the
preview container's `innerHTML`. -/
structure AppState where
  characterSet : String
  iphoneModel : String
  characterIdField : String
  currentCharacterId : JSVal
  preview : String
  deriving DecidableEq, Repr

/-- A built URL: the fixed path plus the `URLSearchParams` entries in
insertion order (`params.toString()` serializes them in this order). -/
structure Url where
  path : String
  params : List (String × String)
  deriving DecidableEq, Repr

/-- `URLSearchParams.set(k, v)`: replace the first entry with key `k` and
drop any later ones; append if the key is absent. -/
def urlParamsSet (ps : List (String × String)) (k v : String) :
    List (String × String) :=
  match ps with
  | [] => [(k, v)]
  | p :: rest =>
    if p.1 = k then (k, v) :: rest.filter (fun q => q.1 ≠ k)
    else p :: urlParamsSet rest k v

/-- `buildApiUrl(outputType, useCurrentId = false)`. -/
def buildApiUrl (st : AppState) (outputType : String)
    (useCurrentId : Bool := false) : Url :=
  let params : List (String × String) :=
    [("output_type", outputType),
     ("character_list", st.characterSet),
     ("iphone_model", st.iphoneModel)]
  let charId := trimJS st.characterIdField
  let params :=
    if charId ≠ "" then urlParamsSet params "character_id" charId
    else if useCurrentId ∧ st.currentCharacterId ≠ JSVal.null then
      urlParamsSet params "character_id" (jsValToString st.currentCharacterId)
    else params
  { path := "/hanja-api/wallpaper", params := params }

/-- Value of a query parameter (first occurrence), if present. -/
def paramGet (u : Url) (k : String) : Option String :=
  (u.params.find? (fun p => p.1 == k)).map Prod.snd

/-- The markup `showLoading()` writes into the preview container. -/
def loadingHTML : String :=
  "\n        <div class=\"loading-placeholder\">\n            <div class=\"spinner-border text-light\" role=\"status\">\n                <span class=\"visually-hidden\">Loading...</span>\n            </div>\n        </div>\n    "

/-- The markup the `catch` block writes into the preview container. -/
def errorHTML : String :=
  "\n        <div class=\"loading-placeholder text-danger\">\n            <span>Error loading preview</span>\n        </div>\n    "

/-- Result of `await response.text()`: the text, or an exception. -/
inductive BodyResult where
  | ok (text : String)
  | exn
  deriving DecidableEq, Repr

/-- Outcome of one `fetch(url)`: the promise rejects (network error) or
resolves to a response with a status, a body-read result and an optional
`Content-Disposition` header. -/
inductive FetchOutcome where
  | networkError
  | response (status : Nat) (body : BodyResult)
      (contentDisposition : Option String)
  deriving DecidableEq, Repr

/-- `Response.ok`: status in the inclusive range 200–299. -/
def responseOk (status : Nat) : Bool := 200 ≤ status && status ≤ 299

/-- `fetchPreview()`: show the loading indicator, then run the
try/catch around the fetch.  Every failure path (rejection, non-ok
status which the code turns into a thrown error, exception while reading
the body) lands in the catch block, which writes the error markup. -/
def fetchPreview (st : AppState) (o : FetchOutcome) : AppState :=
  let st1 := { st with preview := loadingHTML }
  match o with
  | .networkError => { st1 with preview := errorHTML }
  | .response status body cd =>
    if !responseOk status then { st1 with preview := errorHTML }
    else
      match body with
      | .exn => { st1 with preview := errorHTML }
      | .ok svgText =>
        let st2 := { st1 with preview := svgText }
        match cd with
        | none => st2
        | some h =>
          match extractCharacterId h.toList with
          | none => st2
          | some d =>
            { st2 with currentCharacterId := parseIntJS (String.mk d) }

/-- What `downloadPng()` hands to the synthetic anchor: its `href` and its
`download` attribute. -/
structure DownloadAction where
  url : Url
  filename : String
  deriving DecidableEq, Repr

/-- `downloadPng()`: build the png URL with id-reuse enabled and the
suggested filename `wallpaper_${characterSet}_${currentCharacterId || 'random'}.png`. -/
def downloadPng (st : AppState) : DownloadAction :=
  { url := buildApiUrl st "png" true
    filename :=
      "wallpaper_" ++ st.characterSet ++ "_" ++
        (if truthy st.currentCharacterId then
          jsValToString st.currentCharacterId
         else "random") ++ ".png" }

/-- The user / browser events the script wires handlers to.  Events that
trigger a preview fetch carry the network outcome of that fetch. -/
inductive Event where
  | downloadClick
  | refreshClick (o : FetchOutcome)
  | characterSetChange (v : String) (o : FetchOutcome)
  | iphoneModelChange (v : String) (o : FetchOutcome)
  | characterIdChange (v : String) (o : FetchOutcome)
  | pageLoad (o : FetchOutcome)

/-- State after the synchronous part of the character-set change handler,
before `fetchPreview()` is invoked: the select holds the new value and
`currentCharacterId = null`. -/
def characterSetChangeHandlerState (st : AppState) (v : String) : AppState :=
  { st with characterSet := v, currentCharacterId := JSVal.null }

/-- One event-handler run, as wired at the bottom of the script. -/
def step (st : AppState) (e : Event) : AppState :=
  match e with
  | .downloadClick => st
  | .refreshClick o =>
      fetchPreview { st with currentCharacterId := JSVal.null } o
  | .characterSetChange v o =>
      fetchPreview (characterSetChangeHandlerState st v) o
  | .iphoneModelChange v o =>
      fetchPreview { st with iphoneModel := v } o
  | .characterIdChange v o =>
      fetchPreview
        { st with characterIdField := v, currentCharacterId := JSVal.null } o
  | .pageLoad o => fetchPreview st o

/-- The id `currentCharacterId` can legally hold: `null`, or a
non-negative integer. -/
def goodId (v : JSVal) : Prop :=
  v = JSVal.null ∨ ∃ n : Int, v = JSVal.num n ∧ 0 ≤ n

/-- Concrete state with a blank (whitespace-only) id field and stored
id `9`. -/
def stBlank : AppState :=
  { characterSet := "hanja", iphoneModel := "iphone_15_pro",
    characterIdField := "  ", currentCharacterId := JSVal.num 9,
    preview := "" }

/-- Concrete state with id field `" 42 "` and stored id `7`. -/
def stField : AppState :=
  { characterSet := "hanja", iphoneModel := "iphone_15_pro",
    characterIdField := " 42 ", currentCharacterId := JSVal.num 7,
    preview := "" }

/-- Concrete state with character set `hanja` selected and no stored
id. -/
def c6State : AppState :=
  { characterSet := "hanja", iphoneModel := "iphone_15_pro",
    characterIdField := "", currentCharacterId := JSVal.null,
    preview := "" }

/-! ### Helper lemmas -/

lemma digit_not_whitespace {c : Char} (h : c.isDigit = true) :
    c.isWhitespace = false := by
  by_contra hw
  rw [Bool.not_eq_false] at hw
  have hc : ((c = ' ' ∨ c = '\t') ∨ c = '\x0d') ∨ c = '\n' := by
    simpa [Char.isWhitespace] using hw
  rcases hc with ((rfl | rfl) | rfl) | rfl <;> exact absurd h (by decide)

lemma digit_ne_dash {c : Char} (h : c.isDigit = true) : c ≠ '-' := by
  rintro rfl; exact absurd h (by decide)

lemma digit_ne_plus {c : Char} (h : c.isDigit = true) : c ≠ '+' := by
  rintro rfl; exact absurd h (by decide)

/-- The digits captured by `_(\d+)\.svg` form a nonempty list of digits. -/
lemma matchIdTail_digits {l d : List Char} (h : matchIdTail l = some d) :
    d ≠ [] ∧ ∀ c ∈ d, c.isDigit = true := by
  rw [matchIdTail.eq_def] at h
  cases l with
  | nil => simp at h
  | cons c rest =>
    simp only at h
    split at h
    · split at h
      · simp at h
      · split at h
        · rename_i hne _
          cases h
          refine ⟨?_, fun x hx => List.mem_takeWhile_imp hx⟩
          intro hnil
          rw [hnil] at hne
          simp at hne
        · simp at h
    · simp at h

/-- The digits captured by `\w+_(\d+)\.svg` form a nonempty list of digits. -/
lemma matchWordTail_digits : ∀ {l d : List Char}, matchWordTail l = some d →
    d ≠ [] ∧ ∀ c ∈ d, c.isDigit = true := by
  intro l
  induction l with
  | nil => intro d h; simp [matchWordTail] at h
  | cons c rest ih =>
    intro d h
    rw [matchWordTail] at h
    split at h
    · split at h
      · rename_i heq
        cases h
        exact ih heq
      · exact matchIdTail_digits h
    · simp at h

/-- The digits captured by the full pattern form a nonempty list of digits. -/
lemma matchFilenameAt_digits {l d : List Char}
    (h : matchFilenameAt l = some d) : d ≠ [] ∧ ∀ c ∈ d, c.isDigit = true := by
  rw [matchFilenameAt] at h
  split at h
  · exact matchWordTail_digits h
  · simp at h

/-- Whatever group 1 the regex search returns is a nonempty list of digits. -/
lemma extractCharacterId_digits : ∀ {l d : List Char},
    extractCharacterId l = some d → d ≠ [] ∧ ∀ c ∈ d, c.isDigit = true := by
  intro l
  induction l with
  | nil => intro d h; simp [extractCharacterId] at h
  | cons c rest ih =>
    intro d h
    rw [extractCharacterId] at h
    split at h
    · rename_i heq
      cases h
      exact matchFilenameAt_digits heq
    · exact ih h

/-- `parseInt` on a nonempty all-digit string returns its base-10 value. -/
lemma parseIntJS_digits {d : List Char} (hne : d ≠ [])
    (hd : ∀ c ∈ d, c.isDigit = true) :
    parseIntJS (String.mk d) = JSVal.num (digitsToNat d) := by
  obtain ⟨c, rest, rfl⟩ := List.exists_cons_of_ne_nil hne
  have hc : c.isDigit = true := hd c (List.mem_cons_self ..)
  have hdrop :
      (String.mk (c :: rest)).toList.dropWhile Char.isWhitespace = c :: rest := by
    show (c :: rest).dropWhile Char.isWhitespace = c :: rest
    rw [List.dropWhile_cons, digit_not_whitespace hc]
    simp
  have htake : (c :: rest).takeWhile Char.isDigit = c :: rest :=
    List.takeWhile_eq_self_iff.mpr hd
  rw [parseIntJS]
  simp only [hdrop]
  rw [if_neg (digit_ne_dash hc), if_neg (digit_ne_plus hc)]
  simp [htake]

lemma fetchPreview_networkError (st : AppState) :
    fetchPreview st .networkError = { st with preview := errorHTML } := rfl

lemma fetchPreview_fail (st : AppState) (status : Nat) (body : BodyResult)
    (cd : Option String) (h : responseOk status = false) :
    fetchPreview st (.response status body cd) = { st with preview := errorHTML } := by
  simp [fetchPreview, h]

lemma fetchPreview_success_preview (st : AppState) (status : Nat)
    (body : String) (cd : Option String) (hok : responseOk status = true) :
    (fetchPreview st (.response status (.ok body) cd)).preview = body := by
  simp only [fetchPreview, hok, Bool.not_true, Bool.false_eq_true, if_false]
  cases cd with
  | none => rfl
  | some h =>
    cases hm : extractCharacterId h.data with
    | none => simp [hm]
    | some d => simp [hm]

lemma fetchPreview_success_id_none (st : AppState) (status : Nat)
    (body : String) (hok : responseOk status = true) :
    (fetchPreview st (.response status (.ok body) none)).currentCharacterId =
      st.currentCharacterId := by
  simp [fetchPreview, hok]

lemma fetchPreview_success_id_nomatch (st : AppState) (status : Nat)
    (body : String) (h : String) (hok : responseOk status = true)
    (hm : extractCharacterId h.toList = none) :
    (fetchPreview st (.response status (.ok body) (some h))).currentCharacterId =
      st.currentCharacterId := by
  have hm' : extractCharacterId h.data = none := hm
  simp [fetchPreview, hok, hm']

lemma fetchPreview_success_id_match (st : AppState) (status : Nat)
    (body : String) (h : String) (d : List Char) (hok : responseOk status = true)
    (hm : extractCharacterId h.toList = some d) :
    (fetchPreview st (.response status (.ok body) (some h))).currentCharacterId =
      parseIntJS (String.mk d) := by
  have hm' : extractCharacterId h.data = some d := hm
  simp [fetchPreview, hok, hm']

lemma fetchPreview_goodId (st : AppState) (o : FetchOutcome)
    (h : goodId st.currentCharacterId) :
    goodId (fetchPreview st o).currentCharacterId := by
  cases o with
  | networkError => exact h
  | response status body cd =>
    cases hok : responseOk status with
    | false => rw [fetchPreview_fail st status body cd hok]; exact h
    | true =>
      cases body with
      | exn => simp only [fetchPreview, hok, Bool.not_true, Bool.false_eq_true,
          if_false]; exact h
      | ok text =>
        cases cd with
        | none => rw [fetchPreview_success_id_none st status text hok]; exact h
        | some hd =>
          cases hm : extractCharacterId hd.toList with
          | none =>
            rw [fetchPreview_success_id_nomatch st status text hd hok hm]
            exact h
          | some d =>
            rw [fetchPreview_success_id_match st status text hd d hok hm]
            obtain ⟨hne, hdig⟩ := extractCharacterId_digits hm
            right
            exact ⟨digitsToNat d, by rw [parseIntJS_digits hne hdig],
              Int.natCast_nonneg _⟩

lemma urlParamsSet_base (o cl im v : String) :
    urlParamsSet [("output_type", o), ("character_list", cl),
        ("iphone_model", im)] "character_id" v =
      [("output_type", o), ("character_list", cl), ("iphone_model", im),
       ("character_id", v)] := by
  simp [urlParamsSet]

lemma buildApiUrl_blank (st : AppState) (t : String)
    (h : trimJS st.characterIdField = "") :
    (buildApiUrl st t false).params =
      [("output_type", t), ("character_list", st.characterSet),
       ("iphone_model", st.iphoneModel)] := by
  simp [buildApiUrl, h]

lemma buildApiUrl_field (st : AppState) (t : String) (u : Bool)
    (h : trimJS st.characterIdField ≠ "") :
    (buildApiUrl st t u).params =
      [("output_type", t), ("character_list", st.characterSet),
       ("iphone_model", st.iphoneModel),
       ("character_id", trimJS st.characterIdField)] := by
  simp [buildApiUrl, h, urlParamsSet_base]

lemma buildApiUrl_reuse (st : AppState) (t : String) (n : Int)
    (h : trimJS st.characterIdField = "")
    (hid : st.currentCharacterId = JSVal.num n) :
    (buildApiUrl st t true).params =
      [("output_type", t), ("character_list", st.characterSet),
       ("iphone_model", st.iphoneModel),
       ("character_id", toString n)] := by
  simp [buildApiUrl, h, hid, jsValToString, urlParamsSet_base]

lemma paramGet_last (o cl im v p : String) :
    paramGet
      { path := p,
        params := [("output_type", o), ("character_list", cl),
          ("iphone_model", im), ("character_id", v)] } "character_id" =
      some v := by
  simp [paramGet, List.find?]

/-! ### The claims -/

/-- C1: with a blank (after trimming) character-id field and the id-reuse
flag unset, the preview URL carries exactly the parameters
`output_type=svg`, `character_list=S`, `iphone_model=M` and no
`character_id`, whatever `currentCharacterId` holds. -/
theorem c1_blank_id_preview_url (st : AppState)
    (h : trimJS st.characterIdField = "") :
    (buildApiUrl st "svg" false).params =
      [("output_type", "svg"), ("character_list", st.characterSet),
       ("iphone_model", st.iphoneModel)] ∧
    ∀ v : String, ("character_id", v) ∉ (buildApiUrl st "svg" false).params := by
  have hp := buildApiUrl_blank st "svg" h
  refine ⟨hp, fun v hv => ?_⟩
  rw [hp] at hv
  simp at hv

theorem c1_witness :
    trimJS ("  " : String) = "" ∧
    ((buildApiUrl stBlank "svg" false).params =
      [("output_type", "svg"), ("character_list", "hanja"),
       ("iphone_model", "iphone_15_pro")] ∧
     ∀ v : String,
       ("character_id", v) ∉ (buildApiUrl stBlank "svg" false).params) :=
  ⟨by decide, c1_blank_id_preview_url stBlank (by decide)⟩

/-- C2: a non-empty trimmed character-id field is carried verbatim as the
`character_id` parameter in every URL build (any output type, with or
without id reuse, and in the download URL), whatever `currentCharacterId`
holds; in particular a trimmed value `"42"` gives `character_id=42`. -/
theorem c2_explicit_id_verbatim (st : AppState) (t : String) (u : Bool)
    (h : trimJS st.characterIdField ≠ "") :
    paramGet (buildApiUrl st t u) "character_id" =
      some (trimJS st.characterIdField) ∧
    paramGet (downloadPng st).url "character_id" =
      some (trimJS st.characterIdField) ∧
    (trimJS st.characterIdField = "42" →
      paramGet (buildApiUrl st t u) "character_id" = some "42") := by
  have key : ∀ (t' : String) (u' : Bool),
      paramGet (buildApiUrl st t' u') "character_id" =
        some (trimJS st.characterIdField) := by
    intro t' u'
    rw [paramGet, buildApiUrl_field st t' u' h]
    simp [List.find?]
  exact ⟨key t u, key "png" true, fun h42 => by rw [key t u, h42]⟩

theorem c2_witness :
    trimJS (" 42 " : String) ≠ "" ∧
    paramGet (buildApiUrl stField "svg" false) "character_id" = some "42" :=
  ⟨by decide,
    (c2_explicit_id_verbatim stField "svg" false (by decide)).2.2 (by decide)⟩

/-- C3: after a successful preview fetch, `currentCharacterId` becomes the
base-10 value of the digits the filename regex captures from the
`Content-Disposition` header when the header is present and matches (for
`attachment; filename=wallpaper_hanja_123.svg` it becomes `123`), and is
unchanged when the header is absent or does not match. -/
theorem c3_header_updates_last_seen_id (st : AppState) (status : Nat)
    (body : String) (cd : Option String) (hok : responseOk status = true) :
    (∀ h d, cd = some h → extractCharacterId h.toList = some d →
      (fetchPreview st (.response status (.ok body) cd)).currentCharacterId =
        JSVal.num (digitsToNat d)) ∧
    (∀ h, cd = some h → extractCharacterId h.toList = none →
      (fetchPreview st (.response status (.ok body) cd)).currentCharacterId =
        st.currentCharacterId) ∧
    (cd = none →
      (fetchPreview st (.response status (.ok body) cd)).currentCharacterId =
        st.currentCharacterId) ∧
    (cd = some "attachment; filename=wallpaper_hanja_123.svg" →
      (fetchPreview st (.response status (.ok body) cd)).currentCharacterId =
        JSVal.num 123) := by
  refine ⟨?_, ?_, ?_, ?_⟩
  · rintro h d rfl hm
    rw [fetchPreview_success_id_match st status body h d hok hm]
    obtain ⟨hne, hdig⟩ := extractCharacterId_digits hm
    rw [parseIntJS_digits hne hdig]
  · rintro h rfl hm
    exact fetchPreview_success_id_nomatch st status body h hok hm
  · rintro rfl
    exact fetchPreview_success_id_none st status body hok
  · rintro rfl
    have hm : extractCharacterId
        ("attachment; filename=wallpaper_hanja_123.svg").toList =
          some ['1', '2', '3'] := by decide
    rw [fetchPreview_success_id_match st status body _ _ hok hm,
      parseIntJS_digits (by decide) (by decide)]
    decide

theorem c3_witness :
    responseOk 200 = true ∧
    (fetchPreview stBlank (.response 200 (.ok "<svg/>")
        (some "attachment; filename=wallpaper_hanja_123.svg"))).currentCharacterId =
      JSVal.num 123 :=
  ⟨by decide,
    (c3_header_updates_last_seen_id stBlank 200 "<svg/>" _ (by decide)).2.2.2 rfl⟩

/-- C4: blank trimmed id field, stored id `7`, id-reuse enabled (as the
download action enables it for png): the URL carries `character_id=7`. -/
theorem c4_reuse_stored_id (st : AppState)
    (h : trimJS st.characterIdField = "")
    (hid : st.currentCharacterId = JSVal.num 7) :
    paramGet (downloadPng st).url "character_id" = some "7" ∧
    paramGet (buildApiUrl st "png" true) "character_id" = some "7" := by
  have key : paramGet (buildApiUrl st "png" true) "character_id" = some "7" := by
    rw [paramGet, buildApiUrl_reuse st "png" 7 h hid]
    simp [List.find?]
    decide
  exact ⟨key, key⟩

theorem c4_witness :
    trimJS ("" : String) = "" ∧
    paramGet
      (downloadPng
        { characterSet := "hanja", iphoneModel := "iphone_15_pro",
          characterIdField := "", currentCharacterId := JSVal.num 7,
          preview := "" }).url "character_id" = some "7" :=
  ⟨by decide,
    (c4_reuse_stored_id
      { characterSet := "hanja", iphoneModel := "iphone_15_pro",
        characterIdField := "", currentCharacterId := JSVal.num 7,
        preview := "" } (by decide) rfl).1⟩

/-- C5: a fetch that resolves with a non-success status ends with the
error indicator in the preview area (which differs from the loading
indicator) and leaves `currentCharacterId` unchanged. -/
theorem c5_error_status_terminal (st : AppState) (status : Nat)
    (body : BodyResult) (cd : Option String)
    (h : responseOk status = false) :
    (fetchPreview st (.response status body cd)).preview = errorHTML ∧
    (fetchPreview st (.response status body cd)).currentCharacterId =
      st.currentCharacterId ∧
    errorHTML ≠ loadingHTML := by
  rw [fetchPreview_fail st status body cd h]
  exact ⟨rfl, rfl, by decide⟩

theorem c5_witness :
    responseOk 500 = false ∧
    ((fetchPreview stBlank (.response 500 (.ok "oops") none)).preview =
        errorHTML ∧
      (fetchPreview stBlank
          (.response 500 (.ok "oops") none)).currentCharacterId =
        stBlank.currentCharacterId ∧
      errorHTML ≠ loadingHTML) :=
  ⟨by decide, c5_error_status_terminal stBlank 500 (.ok "oops") none (by decide)⟩

/-- C6 counterexample: with character set `hanja` selected, a successful
response whose header names `wallpaper_kanji_55.svg` — a middle component
different from the selected set — still updates `currentCharacterId`
(to `55`), because the code's regex accepts any `\w+` there, not the
selected `character_list` value. -/
theorem c6_counterexample :
    c6State.characterSet = "hanja" ∧
    (fetchPreview c6State (.response 200 (.ok "<svg></svg>")
        (some "attachment; filename=wallpaper_kanji_55.svg"))).currentCharacterId =
      JSVal.num 55 ∧
    JSVal.num 55 ≠ c6State.currentCharacterId := by
  exact ⟨rfl, by decide, by decide⟩

/-- C6 (amended): on a successful svg response, the digits are extracted
as the new id from any `Content-Disposition` filename matching
`wallpaper_<word-characters>_<digits>.svg`, regardless of the currently
selected character-set value; a filename whose middle component differs
from the selected `character_list` updates the last-seen id all the
same. -/
theorem c6_wordchar_component_updates_id (st : AppState) (status : Nat)
    (body : String) (h : String) (d : List Char)
    (hok : responseOk status = true)
    (hm : extractCharacterId h.toList = some d) :
    ∀ S : String,
      (fetchPreview { st with characterSet := S }
          (.response status (.ok body) (some h))).currentCharacterId =
        JSVal.num (digitsToNat d) := by
  intro S
  rw [fetchPreview_success_id_match _ status body h d hok hm]
  obtain ⟨hne, hdig⟩ := extractCharacterId_digits hm
  rw [parseIntJS_digits hne hdig]

theorem c6_witness :
    responseOk 200 = true ∧
    extractCharacterId
      ("attachment; filename=wallpaper_kanji_55.svg").toList =
        some ['5', '5'] ∧
    (fetchPreview { c6State with characterSet := "hanja" }
        (.response 200 (.ok "<svg/>")
          (some "attachment; filename=wallpaper_kanji_55.svg"))).currentCharacterId =
      JSVal.num (digitsToNat ['5', '5']) :=
  ⟨by decide, by decide,
    c6_wordchar_component_updates_id c6State 200 "<svg/>" _ ['5', '5']
      (by decide) (by decide) "hanja"⟩

/-- C7: the character-set change handler sets `currentCharacterId` to
`null` before invoking `fetchPreview`, so the whole handler run is
independent of whatever id a previous fetch had stored. -/
theorem c7_set_change_resets_id (st : AppState) (x : JSVal) (v : String)
    (o : FetchOutcome) :
    (characterSetChangeHandlerState st v).currentCharacterId = JSVal.null ∧
    step st (.characterSetChange v o) =
      fetchPreview (characterSetChangeHandlerState st v) o ∧
    step { st with currentCharacterId := x } (.characterSetChange v o) =
      step st (.characterSetChange v o) :=
  ⟨rfl, rfl, rfl⟩

/-- C8: `fetchPreview` handles every outcome: whatever the network does,
it returns a state whose preview area holds either the fetched body text
(on a fully successful response) or the error indicator. -/
theorem c8_fetch_total (st : AppState) (o : FetchOutcome) :
    (fetchPreview st o).preview = errorHTML ∨
    (∃ status body cd, o = .response status (.ok body) cd ∧
      responseOk status = true ∧ (fetchPreview st o).preview = body) := by
  cases o with
  | networkError => left; rfl
  | response status b cd =>
    cases hok : responseOk status with
    | false => left; rw [fetchPreview_fail st status b cd hok]
    | true =>
      cases b with
      | exn => left; simp [fetchPreview, hok]
      | ok text =>
        right
        exact ⟨status, text, cd, rfl, hok,
          fetchPreview_success_preview st status text cd hok⟩

/-- C9: the suggested download filename depends only on the stored
last-seen id, never on the id input field: a truthy stored id appears in
it, while `0` or `null` give the `random` filename — even when the
download URL itself carries a `character_id` taken from the stored `0`
or from the filled field. -/
theorem c9_filename_from_last_id (st : AppState) :
    (∀ f : String,
      (downloadPng { st with characterIdField := f }).filename =
        (downloadPng st).filename) ∧
    (∀ n : Int, st.currentCharacterId = JSVal.num n → n ≠ 0 →
      (downloadPng st).filename =
        "wallpaper_" ++ st.characterSet ++ "_" ++ toString n ++ ".png") ∧
    (st.currentCharacterId = JSVal.num 0 →
      (downloadPng st).filename =
        "wallpaper_" ++ st.characterSet ++ "_" ++ "random" ++ ".png" ∧
      (trimJS st.characterIdField = "" →
        paramGet (downloadPng st).url "character_id" = some "0")) ∧
    (st.currentCharacterId = JSVal.null →
      (downloadPng st).filename =
        "wallpaper_" ++ st.characterSet ++ "_" ++ "random" ++ ".png" ∧
      (trimJS st.characterIdField ≠ "" →
        paramGet (downloadPng st).url "character_id" =
          some (trimJS st.characterIdField))) := by
  refine ⟨fun f => rfl, ?_, ?_, ?_⟩
  · intro n hid hn
    simp [downloadPng, hid, truthy, hn, jsValToString]
  · intro hid
    constructor
    · simp [downloadPng, hid, truthy, jsValToString]
    · intro hf
      show paramGet (buildApiUrl st "png" true) "character_id" = some "0"
      rw [paramGet, buildApiUrl_reuse st "png" 0 hf hid]
      simp [List.find?]
      decide
  · intro hid
    constructor
    · simp [downloadPng, hid, truthy, jsValToString]
    · intro hf
      exact (c2_explicit_id_verbatim st "png" true hf).2.1

theorem c9_witness :
    (({ characterSet := "hanja", iphoneModel := "iphone_15_pro",
        characterIdField := "", currentCharacterId := JSVal.num 0,
        preview := "" } : AppState).currentCharacterId = JSVal.num 0 ∧
      trimJS ("" : String) = "") ∧
    ((downloadPng
        { characterSet := "hanja", iphoneModel := "iphone_15_pro",
          characterIdField := "", currentCharacterId := JSVal.num 0,
          preview := "" }).filename =
      "wallpaper_" ++ "hanja" ++ "_" ++ "random" ++ ".png" ∧
     paramGet
       (downloadPng
         { characterSet := "hanja", iphoneModel := "iphone_15_pro",
           characterIdField := "", currentCharacterId := JSVal.num 0,
           preview := "" }).url "character_id" = some "0") :=
  ⟨⟨rfl, by decide⟩, by
    have h := (c9_filename_from_last_id
      { characterSet := "hanja", iphoneModel := "iphone_15_pro",
        characterIdField := "", currentCharacterId := JSVal.num 0,
        preview := "" }).2.2.1 rfl
    exact ⟨h.1, h.2 (by decide)⟩⟩

/-- C10: every event-handler run preserves the invariant that
`currentCharacterId` is `null` or a non-negative integer (never `NaN`,
never negative, never a string): handlers only assign `null` or the
`parseInt` of a captured nonempty digit run. -/
theorem c10_id_invariant (st : AppState) (e : Event)
    (h : goodId st.currentCharacterId) :
    goodId (step st e).currentCharacterId := by
  cases e with
  | downloadClick => exact h
  | refreshClick o => exact fetchPreview_goodId _ o (Or.inl rfl)
  | characterSetChange v o => exact fetchPreview_goodId _ o (Or.inl rfl)
  | iphoneModelChange v o => exact fetchPreview_goodId _ o h
  | characterIdChange v o => exact fetchPreview_goodId _ o (Or.inl rfl)
  | pageLoad o => exact fetchPreview_goodId _ o h

theorem c10_witness :
    goodId c6State.currentCharacterId ∧
    goodId ((step c6State (.pageLoad (.response 200 (.ok "<svg/>")
      (some "attachment; filename=wallpaper_hanja_123.svg")))).currentCharacterId) :=
  ⟨Or.inl rfl,
    c10_id_invariant c6State
      (.pageLoad (.response 200 (.ok "<svg/>")
        (some "attachment; filename=wallpaper_hanja_123.svg")))
      (Or.inl rfl)⟩

end HanjaApp
